import Mathlib

/-!
Verification of the survey-processing core of `ms_dlreportes`.

This file gives a shallow embedding, in Lean 4, of the four core components
of the repository and proves/refutes the frozen specification claims about
them:

* the Template Normalizer    (`EncuestasAPIClient.process_survey_template`,
  `app/services/encuestas_client.py`),
* the Response Reconciler    (`EncuestasAPIClient.format_responses_for_api`,
  same file),
* the Identifier Extractor   (`QRCodeService.extract_entrega_id`,
  `QRCodeService.is_valid_entrega_id`, `QRCodeService.find_best_entrega_qr`,
  `app/services/qr_service.py`),
* the Survey Orchestrator    (`SurveyProcessingService.process_survey_image`,
  `app/services/survey_processor.py`).

Modelling conventions, used consistently below:

* Python dicts with fixed keys become Lean structures.  A raw JSON field that
  may be missing (accessed with `dict.get`) becomes an `Option`; `dict.get`
  with a default becomes `Option.getD`.
* Raw answer values (the `respuesta` field produced by the AI extraction)
  follow the data model of the source: a scalar (string, number, boolean or
  null) or a list of such scalars (`Scal`/`Val` below).  Python truthiness
  and `str(...)` are modelled by `scalTruthy`/`truthy` and `scalStr`/`pyStr`.
* Python code that can raise an exception is embedded in `Except String`;
  the only exception source the claims reach is `None.lower()`
  (an `AttributeError`) inside the substring-matching loop of the Reconciler.
* Regular-expression scanning (`re.findall(...)[0]` on the four fixed
  patterns of `QRCodeService.qr_patterns`, with `re.IGNORECASE`) is embedded
  as direct left-to-right scanners over `List Char`, one per pattern.
* Characters are compared through their code points (`Char.toNat`), exactly
  mirroring the regex character classes `[a-f0-9\-]`, `[a-zA-Z0-9\-_]`, etc.
* The network calls made by the orchestrator (QR decode, template fetch, AI
  extraction, response submission) are external collaborators; their results
  are passed to the embedded orchestrator as explicit arguments (oracles),
  which is exactly how the orchestrator consumes them.
-/

/-! ## Python value model -/

/-- A scalar Python value as produced by the AI extraction step:
a string, an integer, a boolean, or `None`. -/
inductive Scal where
  | sstr (s : String)
  | sint (n : Int)
  | sbool (b : Bool)
  | snull
deriving DecidableEq

/-- A raw `respuesta` value: a scalar or a list of scalars
(spec §3: "a raw `answer` value that may be a string, a number-as-string,
or a list of such"). -/
inductive Val where
  | scal (s : Scal)
  | vlist (xs : List Scal)
deriving DecidableEq

/-- Python truthiness of a scalar (`if not x:`):
empty string, `0`, `False` and `None` are falsy. -/
def scalTruthy : Scal → Bool
  | .sstr s => s != ""
  | .sint n => n != 0
  | .sbool b => b
  | .snull => false

/-- Python truthiness of a raw value: a list is truthy iff non-empty. -/
def truthy : Val → Bool
  | .scal s => scalTruthy s
  | .vlist xs => !xs.isEmpty

/-- Python `str()` of a scalar. -/
def scalStr : Scal → String
  | .sstr s => s
  | .sint n => toString n
  | .sbool b => cond b "True" "False"
  | .snull => "None"

/-- The ASCII apostrophe character, used by Python `repr` of strings. -/
def quoteChar : Char := Char.ofNat 39

/-- Python `repr()` of a scalar (list elements are shown with `repr`). -/
def scalRepr : Scal → String
  | .sstr s => String.singleton quoteChar ++ s ++ String.singleton quoteChar
  | .sint n => toString n
  | .sbool b => cond b "True" "False"
  | .snull => "None"

/-- Comma-separated `repr`s of the elements of a Python list. -/
def scalReprList : List Scal → String
  | [] => ""
  | [x] => scalRepr x
  | x :: y :: xs => scalRepr x ++ ", " ++ scalReprList (y :: xs)

/-- Python `str()` of a raw value. -/
def pyStr : Val → String
  | .scal s => scalStr s
  | .vlist xs => "[" ++ scalReprList xs ++ "]"

/-- Python `str()` applied to a possibly-`None` string
(`str(opcion['id'])` where the id may be missing). -/
def optIdStr : Option String → String
  | some s => s
  | none => "None"

/-- Python `str.lower()` (ASCII case folding, character by character;
non-ASCII case folding is not modelled). -/
def strLower (s : String) : String :=
  String.mk (s.toList.map Char.toLower)

/-! ## Data model: normalized template (output of the Template Normalizer) -/

/-- One normalized option, as built by `process_survey_template`:
`{'id': opcion.get('id'), 'texto': opcion.get('texto'),
  'valor': opcion.get('valor')}`. -/
structure Opcion where
  id : Option String
  texto : Option String
  valor : Option String
deriving DecidableEq

/-- One normalized question, as built by `process_survey_template`. -/
structure Pregunta where
  id : Option String
  texto : Option String
  orden : Option Int
  obligatorio : Bool
  tipo : String
  opciones : List Opcion
deriving DecidableEq

/-- Survey metadata carried on the template. -/
structure EncuestaInfo where
  id : Option String
  nombre : Option String
  descripcion : Option String
deriving DecidableEq

/-- The normalized survey template. -/
structure Template where
  entrega_id : Option String
  encuesta : EncuestaInfo
  preguntas : List Pregunta
deriving DecidableEq

/-! ## Data model: raw fetch result (input of the Template Normalizer) -/

/-- A raw option dict from the remote service; every field may be missing. -/
structure RawOpcion where
  id : Option String
  texto : Option String
  valor : Option String
deriving DecidableEq

/-- A raw question dict from the remote service.  `tipoNombre` models
`pregunta.get('tipo', {}).get('nombre', '')` before the default is applied:
`none` when the `tipo` dict or its `nombre` key is missing. -/
structure RawPregunta where
  id : Option String
  texto : Option String
  orden : Option Int
  obligatorio : Option Bool
  tipoNombre : Option String
  opciones : List RawOpcion
deriving DecidableEq

/-- Raw survey metadata (`preguntas_data.get('encuesta', {})`). -/
structure RawEncuesta where
  id : Option String
  nombre : Option String
  descripcion : Option String
deriving DecidableEq

/-- The raw fetch result consumed by `process_survey_template`
(the dict built by `get_entrega_preguntas`). -/
structure RawPreguntasData where
  success : Bool
  entrega_id : Option String
  encuesta : Option RawEncuesta
  preguntas : List RawPregunta
  error : Option String
deriving DecidableEq

/-! ## Template Normalizer (`process_survey_template`) -/

/-- The per-option field mapping, stated separately for the claims. -/
def normalizeOpcion (o : RawOpcion) : Opcion :=
  ⟨o.id, o.texto, o.valor⟩

/-- The per-question field mapping, stated separately for the claims:
missing `tipo` defaults to `""`, missing `obligatorio` to `false`. -/
def normalizePregunta (p : RawPregunta) : Pregunta :=
  ⟨p.id, p.texto, p.orden, p.obligatorio.getD false, p.tipoNombre.getD "",
   p.opciones.map normalizeOpcion⟩

/-- The survey-metadata mapping (`encuesta_info.get(...)` on the dict, with
`{}` as the default when the `encuesta` key is missing). -/
def normalizeEncuesta : Option RawEncuesta → EncuestaInfo
  | some e => ⟨e.id, e.nombre, e.descripcion⟩
  | none => ⟨none, none, none⟩

/-- `EncuestasAPIClient.process_survey_template`
(`app/services/encuestas_client.py`, lines 141-181).  Returns `none` when
the input `success` flag is falsy; otherwise builds the template by
appending one normalized question per raw question, in loop order, the
options likewise appended in loop order (the Python `for`/`append` loops
are embedded as left folds that append). -/
def process_survey_template (d : RawPreguntasData) : Option Template :=
  if !d.success then none
  else
    some
      { entrega_id := d.entrega_id
        encuesta :=
          match d.encuesta with
          | some e => ⟨e.id, e.nombre, e.descripcion⟩
          | none => ⟨none, none, none⟩
        preguntas :=
          d.preguntas.foldl
            (fun acc p =>
              acc ++ [⟨p.id, p.texto, p.orden, p.obligatorio.getD false,
                       p.tipoNombre.getD "",
                       p.opciones.foldl
                         (fun acc2 o => acc2 ++ [⟨o.id, o.texto, o.valor⟩]) []⟩])
            [] }

/-! ## Data model: extracted answers and API responses -/

/-- One extracted answer (an element of the `preguntas` list of the
AI-completed survey): it may carry a `pregunta_id`, an `orden`, and a raw
`respuesta` value (each possibly missing). -/
structure PreguntaOcr where
  pregunta_id : Option String
  orden : Option Int
  respuesta : Option Val
deriving DecidableEq

/-- One API-ready response entry: `{'preguntaId': ..., 'texto': ...}` for
open questions, `{'preguntaId': ..., 'opcionId': ...}` for choice
questions. -/
inductive ApiResp where
  | texto (preguntaId : Option String) (texto : String)
  | opcion (preguntaId : Option String) (opcionId : Option String)
deriving DecidableEq

/-! ## Response Reconciler (`format_responses_for_api`) -/

/-- Substring containment on character lists: Python `needle in hay`. -/
def containsSub (needle : List Char) : List Char → Bool
  | [] => needle.isEmpty
  | c :: rest => needle.isPrefixOf (c :: rest) || containsSub needle rest

/-- `str(resp_item).isdigit()`: non-empty and all decimal digits.
(ASCII digits; Python's `isdigit` additionally accepts some Unicode digit
forms, which this embedding does not model.) -/
def isDigits (s : String) : Bool :=
  s != "" && s.toList.all Char.isDigit

/-- `int(...)` of an all-digit string. -/
def digitsToNat (s : String) : Nat :=
  s.toList.foldl (fun n c => n * 10 + (c.toNat - 48)) 0

/-- The identifier-match step of question resolution (lines 206-212 of
`encuestas_client.py`): when the answer carries a truthy `pregunta_id`,
find the template question with that exact id. -/
def findQuestionById (t : Template) (a : PreguntaOcr) : Option Pregunta :=
  match a.pregunta_id with
  | some pid =>
      if pid != "" then t.preguntas.find? (fun p => p.id == some pid)
      else none
  | none => none

/-- Resolve the template question an extracted answer refers to (lines
203-220): the identifier match first; when it resolved nothing
(`if not pregunta_template:`), fall back to searching by `orden`.  The
`orden` comparison is plain equality of the two possibly-missing values,
as in Python, where `None == None` holds. -/
def findQuestion (t : Template) (a : PreguntaOcr) : Option Pregunta :=
  match findQuestionById t a with
  | some q => some q
  | none => t.preguntas.find? (fun p => p.orden == a.orden)

/-- Exact (case-insensitive, stringified) match of a choice item against the
option ids: `str(opcion['id']).lower() == str(resp_item).lower()`. -/
def findOptionById (opts : List Opcion) (item : Scal) : Option Opcion :=
  opts.find? (fun o => strLower (optIdStr o.id) == strLower (scalStr item))

/-- The substring-matching loop over options
(`if opcion['texto'].lower() in str(resp_item).lower()`).  Evaluating
`.lower()` on a missing `texto` raises an `AttributeError`, which aborts
the whole call; this is embedded as `Except.error`. -/
def substrSearch (item : Scal) : List Opcion → Except String (Option Opcion)
  | [] => .ok none
  | o :: rest =>
    match o.texto with
    | none => .error "AttributeError: NoneType object has no attribute lower"
    | some t =>
        if containsSub (strLower t).toList (strLower (scalStr item)).toList
        then .ok (some o)
        else substrSearch item rest

/-- Numeric-index fallback: if the stringified item is all digits, treat it
as a 1-based index into the option list (lines 250-259). -/
def numericMatch (q : Pregunta) (item : Scal) : Option ApiResp :=
  if isDigits (scalStr item) then
    if 0 ≤ (digitsToNat (scalStr item) : Int) - 1 ∧
        (digitsToNat (scalStr item) : Int) - 1 < (q.opciones.length : Int) then
      match q.opciones.get? ((digitsToNat (scalStr item) : Int) - 1).toNat with
      | some o => some (ApiResp.opcion q.id o.id)
      | none => none
    else none
  else none

/-- Process one item of a choice answer: exact id match, then numeric index,
then substring match; an item matching none of the three is dropped. -/
def processChoiceItem (q : Pregunta) (item : Scal) :
    Except String (List ApiResp) :=
  match findOptionById q.opciones item with
  | some o => .ok [ApiResp.opcion q.id o.id]
  | none =>
    match numericMatch q item with
    | some r => .ok [r]
    | none =>
      match substrSearch item q.opciones with
      | .error e => .error e
      | .ok (some o) => .ok [ApiResp.opcion q.id o.id]
      | .ok none => .ok []

/-- Process the items of a choice answer in order, concatenating the
emitted responses; an exception aborts the whole call. -/
def goItems (q : Pregunta) : List Scal → Except String (List ApiResp)
  | [] => .ok []
  | i :: rest => do
      let r ← processChoiceItem q i
      let rs ← goItems q rest
      return r ++ rs

/-- Process one extracted answer (the body of the main loop, lines
199-269): skip falsy `respuesta`, resolve the question, then branch on the
question type (`'abierta'`/`'completar'` are open, everything else is a
choice question whose raw value is normalized to a list). -/
def processAnswer (t : Template) (a : PreguntaOcr) :
    Except String (List ApiResp) :=
  match a.respuesta with
  | none => .ok []
  | some v =>
    if !truthy v then .ok []
    else
      match findQuestion t a with
      | none => .ok []
      | some q =>
        if strLower q.tipo == "abierta" || strLower q.tipo == "completar" then
          .ok [ApiResp.texto q.id (pyStr v)]
        else
          goItems q (match v with | .vlist xs => xs | .scal s => [s])

/-- The main loop over extracted answers, in input order. -/
def goAnswers (t : Template) : List PreguntaOcr → Except String (List ApiResp)
  | [] => .ok []
  | a :: rest => do
      let r ← processAnswer t a
      let rs ← goAnswers t rest
      return r ++ rs

/-- `EncuestasAPIClient.format_responses_for_api`
(`app/services/encuestas_client.py`, lines 183-277).  The Python function
accepts the answers either directly as a list or wrapped in a dict under
the key `'preguntas'` and immediately reduces to that list; the embedding
takes the list.  A falsy answers argument or a missing template yields `[]`
at once. -/
def format_responses_for_api (ocr_responses : List PreguntaOcr)
    (template : Option Template) : Except String (List ApiResp) :=
  if ocr_responses.isEmpty || template.isNone then .ok []
  else
    match template with
    | none => .ok []
    | some t => goAnswers t ocr_responses

/-! ## Identifier Extractor (`qr_service.py`)

The four patterns of `QRCodeService.qr_patterns`, applied in insertion order
with `re.findall(..., re.IGNORECASE)`:

* `entrega_id` : `entregaId[=:]([a-f0-9\-]+)`
* `url_entrega`: `entrega[/\?]([a-f0-9\-]+)`
* `uuid`      : `([a-f0-9]{8}-[a-f0-9]{4}-[a-f0-9]{4}-[a-f0-9]{4}-[a-f0-9]{12})`
* `simple_id` : `([a-zA-Z0-9\-_]{10,50})`

Each is embedded as a scanner returning the captured group of the leftmost
match (the `matches[0]` the Python code uses), or `none`. -/

/-- The class `[a-zA-Z0-9\-_]` (code points, mirroring the regex ranges). -/
def identChar (c : Char) : Bool :=
  (65 ≤ c.toNat && c.toNat ≤ 90) || (97 ≤ c.toNat && c.toNat ≤ 122) ||
  (48 ≤ c.toNat && c.toNat ≤ 57) || c.toNat == 45 || c.toNat == 95

/-- The class `[a-f0-9]` under `re.IGNORECASE` (so `A`-`F` as well). -/
def hexChar (c : Char) : Bool :=
  (48 ≤ c.toNat && c.toNat ≤ 57) || (97 ≤ c.toNat && c.toNat ≤ 102) ||
  (65 ≤ c.toNat && c.toNat ≤ 70)

/-- The class `[a-f0-9\-]` under `re.IGNORECASE`. -/
def hexDashChar (c : Char) : Bool :=
  hexChar c || c.toNat == 45

/-- Whether `cs` is exactly the canonical 8-4-4-4-12 UUID shape
(36 characters, hyphens at indices 8, 13, 18 and 23, hex elsewhere). -/
def uuidShape (cs : List Char) : Bool :=
  cs.length == 36 &&
  (List.range 36).all (fun i =>
    if i == 8 || i == 13 || i == 18 || i == 23 then cs.getD i ' ' == '-'
    else hexChar (cs.getD i ' '))

/-- `QRCodeService.is_valid_entrega_id` (`qr_service.py`, lines 117-131):
an anchored canonical UUID (case-insensitive), or an anchored run of
10 to 50 characters from `[a-zA-Z0-9\-_]`. -/
def is_valid_entrega_id (cs : List Char) : Bool :=
  uuidShape cs ||
  (decide (10 ≤ cs.length) && decide (cs.length ≤ 50) && cs.all identChar)

/-- Scanner for the `uuid` pattern: the leftmost 36-character window of
canonical UUID shape. -/
def findUuid : List Char → Option (List Char)
  | [] => none
  | c :: rest =>
      if uuidShape ((c :: rest).take 36) then some ((c :: rest).take 36)
      else findUuid rest

/-- Scanner for the `simple_id` pattern `([a-zA-Z0-9\-_]{10,50})`: at the
leftmost position where at least 10 consecutive class characters start,
capture greedily up to 50 of them. -/
def findRun1050 : List Char → Option (List Char)
  | [] => none
  | c :: rest =>
      if 10 ≤ ((c :: rest).takeWhile identChar).length then
        some (((c :: rest).takeWhile identChar).take 50)
      else findRun1050 rest

/-- Case-insensitive literal prefix test (the marker is given lowercase). -/
def markerPrefixCI : List Char → List Char → Bool
  | [], _ => true
  | _ :: _, [] => false
  | m :: ms, c :: cs => c.toLower == m && markerPrefixCI ms cs

/-- Scanner for the two marker patterns `entregaId[=:](...)` and
`entrega[/\?](...)`: at the leftmost position where the literal marker
(case-insensitively), a separator from `seps`, and at least one
`[a-f0-9\-]` character follow in sequence, capture the maximal
`[a-f0-9\-]` run after the separator. -/
def findMarker (marker : List Char) (seps : List Char) :
    List Char → Option (List Char)
  | [] => none
  | c :: rest =>
      if markerPrefixCI marker (c :: rest) then
        match (c :: rest).drop marker.length with
        | sep :: tail =>
            if seps.contains sep && !(tail.takeWhile hexDashChar).isEmpty
            then some (tail.takeWhile hexDashChar)
            else findMarker marker seps rest
        | [] => findMarker marker seps rest
      else findMarker marker seps rest

/-- The `entrega_id` pattern `entregaId[=:]([a-f0-9\-]+)`. -/
def pat_entrega_id (cs : List Char) : Option (List Char) :=
  findMarker "entregaid".toList ['=', ':'] cs

/-- The `url_entrega` pattern `entrega[/\?]([a-f0-9\-]+)`. -/
def pat_url_entrega (cs : List Char) : Option (List Char) :=
  findMarker "entrega".toList ['/', '?'] cs

/-- The pattern loop of `extract_entrega_id`: try the patterns in order;
when one has a match, return its first captured group if it validates,
otherwise move on to the next pattern. -/
def tryPatterns : List (List Char → Option (List Char)) → List Char →
    Option (List Char)
  | [], _ => none
  | f :: fs, cs =>
      match f cs with
      | some m => if is_valid_entrega_id m then some m else tryPatterns fs cs
      | none => tryPatterns fs cs

/-- `QRCodeService.extract_entrega_id` (`qr_service.py`, lines 94-115):
try the four patterns in insertion order; if none yields a validated
group, validate the entire payload; otherwise report nothing. -/
def extract_entrega_id (qr_data : String) : Option String :=
  let cs := qr_data.toList
  match tryPatterns [pat_entrega_id, pat_url_entrega, findUuid, findRun1050] cs with
  | some m => some (String.mk m)
  | none => if is_valid_entrega_id cs then some qr_data else none

/-! ## QR selector (`find_best_entrega_qr`) -/

/-- A formatted bounding box (`QRCodeService._format_bbox`). -/
structure BBox where
  x : Int
  y : Int
  width : Int
  height : Int
  x2 : Int
  y2 : Int
deriving DecidableEq

/-- One decoded QR result as built by `detect_qr_codes`.  The dict key
`type` is rendered as `qrType`. -/
structure QrInfo where
  data : String
  qrType : String
  bbox : Option BBox
  entrega_id : Option String
  is_entrega : Bool
deriving DecidableEq

/-- The sort key of the `max(...)` call in `find_best_entrega_qr`:
`x['bbox']['width'] * x['bbox']['height'] if x.get('bbox') else 0`. -/
def qrArea (q : QrInfo) : Int :=
  match q.bbox with
  | some b => b.width * b.height
  | none => 0

/-- Python `max(xs, key=f)`: the first element with the maximal key
(later elements replace the current best only when strictly greater). -/
def pyMaxBy (f : QrInfo → Int) (b : QrInfo) : List QrInfo → QrInfo
  | [] => b
  | x :: xs => pyMaxBy f (if f b < f x then x else b) xs

/-- The selector's result dict. -/
structure BestQr where
  entrega_id : Option String
  qr_data : String
  confidence : String
  bbox : Option BBox
deriving DecidableEq

/-- `QRCodeService.find_best_entrega_qr` (`qr_service.py`, lines 195-214):
`none` on an empty list; otherwise start from the first element and, only
when that first element has a bounding box, replace it by the maximal-area
element; confidence is `"high"` exactly when the list is a singleton. -/
def find_best_entrega_qr (entrega_qrs : List QrInfo) : Option BestQr :=
  match entrega_qrs with
  | [] => none
  | q0 :: rest =>
      let best := if q0.bbox.isSome then pyMaxBy qrArea q0 rest else q0
      some ⟨best.entrega_id, best.data,
            if (q0 :: rest).length == 1 then "high" else "medium",
            best.bbox⟩

/-! ## Survey Orchestrator (`survey_processor.py`)

`SurveyProcessingService.process_survey_image` sequences
QR scan → template fetch → template normalization → AI extraction →
reconciliation → submission.  The results of the four external calls
(`detect_qr_codes`, `get_entrega_preguntas`, `gemini_ocr.process_survey`,
`save_entrega_respuestas`) are supplied as explicit arguments; the
orchestrator only inspects the fields modelled below. -/

/-- Result of `detect_qr_codes` as consumed by the orchestrator. -/
structure QrScanResult where
  success : Bool
  qr_codes : List QrInfo
  entrega_qrs : List QrInfo
  error : Option String
deriving DecidableEq

/-- Result of `gemini_ocr.process_survey` as consumed by the orchestrator:
`survey_preguntas` is the `preguntas` list inside `survey_completed`
(missing `survey_completed` is the empty list, matching the
`.get('survey_completed', {})` default, under which the reconciler
immediately returns `[]`). -/
structure OcrResult where
  success : Bool
  error : Option String
  survey_preguntas : List PreguntaOcr
deriving DecidableEq

/-- Result of `save_entrega_respuestas` as consumed by the orchestrator. -/
structure SaveResult where
  success : Bool
  message : Option String
  error : Option String
deriving DecidableEq

/-- The orchestrator's terminal result: a tagged failure
`{success: False, error, step}` (with the `entrega_id` field present for
the `api_get` and `gemini_ocr` steps), or the success dict of lines 70-77
of `survey_processor.py`. -/
inductive RunResult where
  | failed (error : String) (entrega_id : Option String) (step : String)
  | ok (entrega_id : Option String) (encuesta : EncuestaInfo)
      (responses_sent : Nat) (save_result : SaveResult) (post_success : Bool)
deriving DecidableEq

/-- The f-string rendering of a possibly-missing error message. -/
def optErrStr : Option String → String
  | some e => e
  | none => "None"

/-- `entrega_id = qr_result['entrega_qrs'][0]['entrega_id']`. -/
def firstEntregaId (qr : QrScanResult) : Option String :=
  match qr.entrega_qrs with
  | [] => none
  | q :: _ => q.entrega_id

/-- `SurveyProcessingService.process_survey_image`
(`app/services/survey_processor.py`, lines 21-84).  The surrounding
`try/except` turns any exception raised inside the pipeline (only the
reconciler can raise in this embedding) into
`{success: False, error, step: 'exception'}`. -/
def process_survey_image (qr : QrScanResult) (fetch : RawPreguntasData)
    (ocr : OcrResult) (save : SaveResult) : RunResult :=
  if !qr.success || qr.entrega_qrs.isEmpty then
    .failed "No se encontró código QR con entrega ID" none "qr_scan"
  else if !fetch.success then
    .failed ("Error obteniendo encuesta: " ++ optErrStr fetch.error)
      (firstEntregaId qr) "api_get"
  else
    match process_survey_template fetch with
    | none =>
        .failed "Error inesperado: TypeError: NoneType is not subscriptable"
          none "exception"
    | some t =>
        if !ocr.success then
          .failed ("Error en Gemini: " ++ optErrStr ocr.error)
            (firstEntregaId qr) "gemini_ocr"
        else
          match format_responses_for_api ocr.survey_preguntas (some t) with
          | .error e => .failed ("Error inesperado: " ++ e) none "exception"
          | .ok rs =>
              .ok (firstEntregaId qr) t.encuesta rs.length save save.success

/-! ## Auxiliary predicates used by the claims -/

/-- Whether the payload contains, at some position, at least 10 consecutive
characters of the identifier class `[a-zA-Z0-9\-_]` (the guard of the
`simple_id` scanner, tested at every suffix). -/
def hasRun10 : List Char → Bool
  | [] => false
  | c :: rest =>
      decide (10 ≤ ((c :: rest).takeWhile identChar).length) || hasRun10 rest

/-- Well-formedness of one emitted response entry with respect to a
template: an open-text entry whose `preguntaId` is the id of an
open-type template question, or a choice entry whose `opcionId` is the id
of an option of the very question named by `preguntaId`. -/
def wellFormedResp (t : Template) : ApiResp → Prop
  | .texto pid _ =>
      ∃ q ∈ t.preguntas, q.id = pid ∧
        (strLower q.tipo = "abierta" ∨ strLower q.tipo = "completar")
  | .opcion pid oid =>
      ∃ q ∈ t.preguntas, q.id = pid ∧ ∃ o ∈ q.opciones, o.id = oid

/-! # Theorems

General lemmas first, then per-claim theorems (each preceded by a doc
comment naming the claim). -/

/-! ### List helpers -/

theorem foldl_append_eq_map {α β : Type} (f : α → β) :
    ∀ (l : List α) (init : List β),
      l.foldl (fun acc x => acc ++ [f x]) init = init ++ l.map f
  | [], _ => by simp
  | x :: xs, init => by
      rw [List.foldl_cons, foldl_append_eq_map f xs]
      simp

theorem takeWhile_length_mono {p q : Char → Bool}
    (hpq : ∀ c, p c = true → q c = true) :
    ∀ l : List Char, (l.takeWhile p).length ≤ (l.takeWhile q).length
  | [] => by simp
  | c :: rest => by
      cases hp : p c with
      | true =>
          rw [List.takeWhile_cons, List.takeWhile_cons, hp, hpq c hp]
          simpa using takeWhile_length_mono hpq rest
      | false =>
          rw [List.takeWhile_cons, hp]
          simp

theorem takeWhile_length_of_take {p : Char → Bool} :
    ∀ (k : Nat) (l : List Char), (∀ c ∈ l.take k, p c = true) →
      k ≤ l.length → k ≤ (l.takeWhile p).length
  | 0, _, _, _ => Nat.zero_le _
  | k + 1, [], _, hk => by simp at hk
  | k + 1, c :: rest, h, hk => by
      have hc : p c = true := h c (by simp)
      rw [List.takeWhile_cons, hc]
      have := takeWhile_length_of_take k rest
        (fun x hx => h x (by simp [hx])) (by simpa using hk)
      simpa using this

/-! ### Reconciler: skipped answers leave the output unchanged -/

theorem goAnswers_skip (t : Template) (a : PreguntaOcr) (l : List PreguntaOcr)
    (h : processAnswer t a = .ok []) :
    goAnswers t (a :: l) = goAnswers t l := by
  have e : goAnswers t (a :: l) = do
      let r ← processAnswer t a
      let rs ← goAnswers t l
      return r ++ rs := rfl
  rw [e, h]
  cases hg : goAnswers t l <;> rfl

theorem goAnswers_insert (t : Template) (pre post : List PreguntaOcr)
    (a : PreguntaOcr) (h : processAnswer t a = .ok []) :
    goAnswers t (pre ++ a :: post) = goAnswers t (pre ++ post) := by
  induction pre with
  | nil => simpa using goAnswers_skip t a post h
  | cons p pre ih =>
      show (do
          let r ← processAnswer t p
          let rs ← goAnswers t (pre ++ a :: post)
          return r ++ rs) =
        (do
          let r ← processAnswer t p
          let rs ← goAnswers t (pre ++ post)
          return r ++ rs)
      rw [ih]

theorem format_skip (t : Template) (pre post : List PreguntaOcr)
    (a : PreguntaOcr) (h : processAnswer t a = .ok []) :
    format_responses_for_api (pre ++ a :: post) (some t)
      = format_responses_for_api (pre ++ post) (some t) := by
  have hins := goAnswers_insert t pre post a h
  have hne : (pre ++ a :: post).isEmpty = false := by cases pre <;> rfl
  cases hpp : pre ++ post with
  | nil =>
      rw [hpp] at hins
      simp [format_responses_for_api, hne, hins, goAnswers]
  | cons x xs =>
      rw [hpp] at hins
      simp [format_responses_for_api, hne, hins, hpp]

/-! ### Claim C1 -/

/-- C1: for the two-question template (open `q1`, choice `q2` with options
`o1` = "Rojo" and `o2` = "Azul") and the extracted answers
`q1 ↦ "hola"`, `q2 ↦ "Azul"`, the Reconciler produces exactly
`[{preguntaId: q1, texto: "hola"}, {preguntaId: q2, opcionId: o2}]`,
in that order. -/
theorem reconciler_end_to_end_example :
    format_responses_for_api
      [⟨some "q1", none, some (.scal (.sstr "hola"))⟩,
       ⟨some "q2", none, some (.scal (.sstr "Azul"))⟩]
      (some ⟨none, ⟨none, none, none⟩,
        [⟨some "q1", none, some 1, false, "abierta", []⟩,
         ⟨some "q2", none, some 2, false, "opcion",
          [⟨some "o1", some "Rojo", none⟩, ⟨some "o2", some "Azul", none⟩]⟩]⟩)
      = .ok [ApiResp.texto (some "q1") "hola",
             ApiResp.opcion (some "q2") (some "o2")] := rfl

/-! ### Claim C2 -/

/-- C2 counterexample: an extracted answer carrying the `question_id`
`"missing"`, which matches no template question id, nevertheless produces an
`ApiResponse`, because the code falls back to matching by `orden` (here
`orden = 1` matches question `q1`).  The claim says no `ApiResponse` is
emitted for such an answer. -/
theorem reconciler_unknown_id_cex :
    format_responses_for_api
      [⟨some "missing", some 1, some (.scal (.sstr "hola"))⟩]
      (some ⟨none, ⟨none, none, none⟩,
        [⟨some "q1", none, some 1, false, "abierta", []⟩]⟩)
      = .ok [ApiResp.texto (some "q1") "hola"] ∧
    (Except.ok [ApiResp.texto (some "q1") "hola"]
      : Except String (List ApiResp)) ≠ .ok [] := by
  exact ⟨rfl, by intro h; simp at h⟩

/-- C2 (amended): an extracted answer whose carried `question_id` matches no
template question id is resolved by the positional (`orden`) fallback; only
when that also matches no template question is the answer dropped, and then
no other answer's output is affected (isolation).  When the carried
`question_id` does resolve to a template question, that identifier match
alone determines the resolved question. -/
theorem reconciler_id_match :
    (∀ (t : Template) (pre post : List PreguntaOcr) (a : PreguntaOcr)
       (pid : String),
      a.pregunta_id = some pid → pid ≠ "" →
      (∀ q ∈ t.preguntas, q.id ≠ some pid) →
      (∀ q ∈ t.preguntas, q.orden ≠ a.orden) →
      format_responses_for_api (pre ++ a :: post) (some t)
        = format_responses_for_api (pre ++ post) (some t)) ∧
    (∀ (t : Template) (a : PreguntaOcr) (pid : String) (q : Pregunta),
      a.pregunta_id = some pid → pid ≠ "" →
      t.preguntas.find? (fun p => p.id == some pid) = some q →
      findQuestion t a = some q) := by
  constructor
  · intro t pre post a pid hpid hne hid horden
    apply format_skip
    have hfq : findQuestion t a = none := by
      unfold findQuestion findQuestionById
      rw [hpid]
      have h1 : t.preguntas.find? (fun p => p.id == some pid) = none :=
        List.find?_eq_none.mpr (fun q hq => by simp [hid q hq])
      have h2 : t.preguntas.find? (fun p => p.orden == a.orden) = none :=
        List.find?_eq_none.mpr (fun q hq => by simp [horden q hq])
      simp [bne_iff_ne, hne, h1, h2]
    unfold processAnswer
    cases hr : a.respuesta with
    | none => rfl
    | some v => simp [hfq]
  · intro t a pid q hpid hne hfind
    unfold findQuestion findQuestionById
    rw [hpid]
    simp [bne_iff_ne, hne, hfind]

/-- Witness for C2 (amended), at a concrete input: an answer with
`question_id = "missing"` and `orden = 5`, neither matching the
single-question template, leaves the output unchanged. -/
theorem reconciler_id_match_witness :
    format_responses_for_api
      [⟨some "missing", some 5, some (.scal (.sstr "hola"))⟩]
      (some ⟨none, ⟨none, none, none⟩,
        [⟨some "q1", none, some 1, false, "abierta", []⟩]⟩)
      = format_responses_for_api []
      (some ⟨none, ⟨none, none, none⟩,
        [⟨some "q1", none, some 1, false, "abierta", []⟩]⟩) :=
  reconciler_id_match.1 _ [] [] _ "missing" rfl (by decide) (by decide)
    (by decide)

/-! ### Claim C10 -/

/-- C10: the Reconciler's skip test uses Python truthiness of the raw
`respuesta` value: an answer whose `respuesta` is absent, `None`, the empty
string, the empty list, `False` or `0` is skipped entirely — no
`ApiResponse` is emitted for it and the rest of the output is unchanged. -/
theorem reconciler_skips_falsy_respuesta (t : Template)
    (pre post : List PreguntaOcr) (a : PreguntaOcr)
    (h : a.respuesta = none ∨ a.respuesta = some (.scal .snull) ∨
         a.respuesta = some (.scal (.sstr "")) ∨
         a.respuesta = some (.vlist []) ∨
         a.respuesta = some (.scal (.sbool false)) ∨
         a.respuesta = some (.scal (.sint 0))) :
    format_responses_for_api (pre ++ a :: post) (some t)
      = format_responses_for_api (pre ++ post) (some t) := by
  apply format_skip
  unfold processAnswer
  rcases h with h | h | h | h | h | h <;>
    simp [h, truthy, scalTruthy]

/-- Witness for C10 at a concrete input: an answer with `respuesta = 0`
(which is neither empty nor null) is skipped. -/
theorem reconciler_skips_falsy_respuesta_witness :
    format_responses_for_api
      [⟨some "q1", none, some (.scal (.sint 0))⟩]
      (some ⟨none, ⟨none, none, none⟩,
        [⟨some "q1", none, some 1, false, "abierta", []⟩]⟩)
      = format_responses_for_api []
      (some ⟨none, ⟨none, none, none⟩,
        [⟨some "q1", none, some 1, false, "abierta", []⟩]⟩) :=
  reconciler_skips_falsy_respuesta _ [] [] _
    (Or.inr (Or.inr (Or.inr (Or.inr (Or.inr rfl)))))

/-! ### Reconciler: totality and well-formedness lemmas -/

theorem except_bind_ok {α β : Type} (a : α) (f : α → Except String β) :
    ((Except.ok a : Except String α) >>= f) = f a := rfl

theorem except_bind_error {α β : Type} (e : String)
    (f : α → Except String β) :
    ((Except.error e : Except String α) >>= f) = Except.error e := rfl

theorem findQuestionById_mem {t : Template} {a : PreguntaOcr} {q : Pregunta}
    (h : findQuestionById t a = some q) : q ∈ t.preguntas := by
  unfold findQuestionById at h
  split at h
  · split at h
    · exact List.mem_of_find?_eq_some h
    · cases h
  · cases h

theorem findQuestion_mem {t : Template} {a : PreguntaOcr} {q : Pregunta}
    (h : findQuestion t a = some q) : q ∈ t.preguntas := by
  unfold findQuestion at h
  split at h
  next q' hb =>
    injection h with h'
    exact h' ▸ findQuestionById_mem hb
  next => exact List.mem_of_find?_eq_some h

theorem substrSearch_total (item : Scal) :
    ∀ (opts : List Opcion), (∀ o ∈ opts, o.texto.isSome = true) →
      ∃ r, substrSearch item opts = .ok r
  | [], _ => ⟨none, rfl⟩
  | o :: rest, h => by
      obtain ⟨tx, htx⟩ := Option.isSome_iff_exists.mp (h o (by simp))
      obtain ⟨r, hr⟩ :=
        substrSearch_total item rest (fun o' ho' => h o' (by simp [ho']))
      simp only [substrSearch, htx]
      cases hc : containsSub (strLower tx).toList
          (strLower (scalStr item)).toList with
      | true => exact ⟨some o, by simp⟩
      | false => exact ⟨r, by simpa using hr⟩

theorem substrSearch_mem (item : Scal) :
    ∀ (opts : List Opcion) (o : Opcion),
      substrSearch item opts = .ok (some o) → o ∈ opts
  | [], o, h => by simp [substrSearch] at h
  | o' :: rest, o, h => by
      unfold substrSearch at h
      split at h
      · cases h
      · split at h
        · injection h with h'
          injection h' with h''
          simp [← h'']
        · exact List.mem_cons_of_mem _ (substrSearch_mem item rest o h)

theorem numericMatch_shape (q : Pregunta) (item : Scal) (r : ApiResp)
    (h : numericMatch q item = some r) :
    ∃ o ∈ q.opciones, r = ApiResp.opcion q.id o.id := by
  unfold numericMatch at h
  split at h
  · split at h
    · split at h
      next o hg =>
        injection h with h'
        exact ⟨o, List.get?_mem hg, h'.symm⟩
      next => cases h
    · cases h
  · cases h

theorem processChoiceItem_total (q : Pregunta) (item : Scal)
    (h : ∀ o ∈ q.opciones, o.texto.isSome = true) :
    ∃ rs, processChoiceItem q item = .ok rs := by
  unfold processChoiceItem
  cases hf : findOptionById q.opciones item with
  | some o => exact ⟨_, rfl⟩
  | none =>
      cases hn : numericMatch q item with
      | some r => exact ⟨_, rfl⟩
      | none =>
          obtain ⟨r, hr⟩ := substrSearch_total item q.opciones h
          cases r with
          | some o => exact ⟨_, by rw [hr]⟩
          | none => exact ⟨_, by rw [hr]⟩

theorem processChoiceItem_shape (q : Pregunta) (item : Scal)
    (rs : List ApiResp) (h : processChoiceItem q item = .ok rs) :
    ∀ r ∈ rs, ∃ o ∈ q.opciones, r = ApiResp.opcion q.id o.id := by
  unfold processChoiceItem at h
  split at h
  next o hf =>
    injection h with h'
    subst h'
    intro r hr
    rw [List.mem_singleton] at hr
    subst hr
    exact ⟨o, List.mem_of_find?_eq_some hf, rfl⟩
  next hf =>
    split at h
    next r0 hn =>
      injection h with h'
      subst h'
      intro r hr
      rw [List.mem_singleton] at hr
      subst hr
      exact numericMatch_shape q item _ hn
    next hn =>
      split at h
      · cases h
      next o hs =>
        injection h with h'
        subst h'
        intro r hr
        rw [List.mem_singleton] at hr
        subst hr
        exact ⟨o, substrSearch_mem item _ o hs, rfl⟩
      next hs =>
        injection h with h'
        subst h'
        intro r hr
        simp at hr

theorem goItems_total (q : Pregunta)
    (h : ∀ o ∈ q.opciones, o.texto.isSome = true) :
    ∀ items : List Scal, ∃ rs, goItems q items = .ok rs
  | [] => ⟨[], rfl⟩
  | i :: rest => by
      obtain ⟨r, hr⟩ := processChoiceItem_total q i h
      obtain ⟨rs, hrs⟩ := goItems_total q h rest
      refine ⟨r ++ rs, ?_⟩
      show (processChoiceItem q i >>= fun r =>
        goItems q rest >>= fun rs => pure (r ++ rs)) = _
      rw [hr, except_bind_ok, hrs, except_bind_ok]
      rfl

theorem goItems_shape (q : Pregunta) :
    ∀ (items : List Scal) (rs : List ApiResp), goItems q items = .ok rs →
      ∀ r ∈ rs, ∃ o ∈ q.opciones, r = ApiResp.opcion q.id o.id
  | [], rs, h => by
      injection h with h'
      subst h'
      intro r hr
      simp at hr
  | i :: rest, rs, h => by
      have e : goItems q (i :: rest) = (processChoiceItem q i >>= fun r =>
          goItems q rest >>= fun rs => pure (r ++ rs)) := rfl
      rw [e] at h
      cases hp : processChoiceItem q i with
      | error e' => rw [hp, except_bind_error] at h; cases h
      | ok r1 =>
          rw [hp, except_bind_ok] at h
          cases hg : goItems q rest with
          | error e' => rw [hg, except_bind_error] at h; cases h
          | ok r2 =>
              rw [hg, except_bind_ok] at h
              injection h with h'
              subst h'
              intro r hr
              rcases List.mem_append.mp hr with hr1 | hr2
              · exact processChoiceItem_shape q i r1 hp r hr1
              · exact goItems_shape q rest r2 hg r hr2

theorem substrSearch_error (item : Scal) :
    ∀ (opts : List Opcion) (e : String), substrSearch item opts = .error e →
      ∃ o ∈ opts, o.texto = none
  | [], e, h => by cases h
  | o :: rest, e, h => by
      unfold substrSearch at h
      split at h
      next hnone => exact ⟨o, by simp, hnone⟩
      next tx htx =>
        split at h
        · cases h
        · obtain ⟨o', ho', htx'⟩ := substrSearch_error item rest e h
          exact ⟨o', by simp [ho'], htx'⟩

theorem processChoiceItem_error (q : Pregunta) (item : Scal) (e : String)
    (h : processChoiceItem q item = .error e) :
    ∃ o ∈ q.opciones, o.texto = none := by
  unfold processChoiceItem at h
  split at h
  · cases h
  · split at h
    · cases h
    · split at h
      next hs => exact substrSearch_error item q.opciones _ hs
      · cases h
      · cases h

theorem goItems_error (q : Pregunta) :
    ∀ (items : List Scal) (e : String), goItems q items = .error e →
      ∃ o ∈ q.opciones, o.texto = none
  | [], e, h => by cases h
  | i :: rest, e, h => by
      have e1 : goItems q (i :: rest) = (processChoiceItem q i >>= fun r =>
          goItems q rest >>= fun rs => pure (r ++ rs)) := rfl
      rw [e1] at h
      cases hp : processChoiceItem q i with
      | error e' => exact processChoiceItem_error q i e' hp
      | ok r1 =>
          rw [hp, except_bind_ok] at h
          cases hg : goItems q rest with
          | error e' => exact goItems_error q rest e' hg
          | ok r2 => rw [hg, except_bind_ok] at h; cases h

theorem processAnswer_error (t : Template) (a : PreguntaOcr) (e : String)
    (h : processAnswer t a = .error e) :
    ∃ q ∈ t.preguntas, ∃ o ∈ q.opciones, o.texto = none := by
  unfold processAnswer at h
  split at h
  · cases h
  next v hv =>
    split at h
    · cases h
    · split at h
      · cases h
      next q hfq =>
        split at h
        · cases h
        · exact ⟨q, findQuestion_mem hfq, goItems_error q _ e h⟩

theorem processAnswer_total (t : Template) (a : PreguntaOcr)
    (H : ∀ q ∈ t.preguntas, ∀ o ∈ q.opciones, o.texto.isSome = true) :
    ∃ rs, processAnswer t a = .ok rs := by
  cases hpa : processAnswer t a with
  | ok rs => exact ⟨rs, rfl⟩
  | error e =>
      obtain ⟨q, hq, o, ho, htx⟩ := processAnswer_error t a e hpa
      have hsome := H q hq o ho
      rw [htx] at hsome
      cases hsome

theorem processAnswer_shape (t : Template) (a : PreguntaOcr)
    (rs : List ApiResp) (h : processAnswer t a = .ok rs) :
    ∀ r ∈ rs, wellFormedResp t r := by
  unfold processAnswer at h
  split at h
  · injection h with h'
    subst h'
    intro r hr
    simp at hr
  next v hv =>
    split at h
    · injection h with h'
      subst h'
      intro r hr
      simp at hr
    next htr =>
      split at h
      · injection h with h'
        subst h'
        intro r hr
        simp at hr
      next q hfq =>
        have hq : q ∈ t.preguntas := findQuestion_mem hfq
        split at h
        next topen =>
          injection h with h'
          subst h'
          intro r hr
          rw [List.mem_singleton] at hr
          subst hr
          refine ⟨q, hq, rfl, ?_⟩
          rcases Bool.or_eq_true_iff.mp topen with ha | hc
          · exact Or.inl (by simpa using ha)
          · exact Or.inr (by simpa using hc)
        next topen =>
          intro r hr
          obtain ⟨o, ho, rfl⟩ :=
            goItems_shape q _ rs h r hr
          exact ⟨q, hq, rfl, o, ho, rfl⟩

theorem goAnswers_total (t : Template)
    (H : ∀ q ∈ t.preguntas, ∀ o ∈ q.opciones, o.texto.isSome = true) :
    ∀ l : List PreguntaOcr, ∃ rs, goAnswers t l = .ok rs
  | [] => ⟨[], rfl⟩
  | a :: rest => by
      obtain ⟨r, hr⟩ := processAnswer_total t a H
      obtain ⟨rs, hrs⟩ := goAnswers_total t H rest
      refine ⟨r ++ rs, ?_⟩
      show (processAnswer t a >>= fun r =>
        goAnswers t rest >>= fun rs => pure (r ++ rs)) = _
      rw [hr, except_bind_ok, hrs, except_bind_ok]
      rfl

theorem goAnswers_shape (t : Template) :
    ∀ (l : List PreguntaOcr) (rs : List ApiResp), goAnswers t l = .ok rs →
      ∀ r ∈ rs, wellFormedResp t r
  | [], rs, h => by
      injection h with h'
      subst h'
      intro r hr
      simp at hr
  | a :: rest, rs, h => by
      have e : goAnswers t (a :: rest) = (processAnswer t a >>= fun r =>
          goAnswers t rest >>= fun rs => pure (r ++ rs)) := rfl
      rw [e] at h
      cases hp : processAnswer t a with
      | error e' => rw [hp, except_bind_error] at h; cases h
      | ok r1 =>
          rw [hp, except_bind_ok] at h
          cases hg : goAnswers t rest with
          | error e' => rw [hg, except_bind_error] at h; cases h
          | ok r2 =>
              rw [hg, except_bind_ok] at h
              injection h with h'
              subst h'
              intro r hr
              rcases List.mem_append.mp hr with hr1 | hr2
              · exact processAnswer_shape t a r1 hp r hr1
              · exact goAnswers_shape t rest r2 hg r hr2

/-! ### Claim C3 -/

/-- C3 counterexample: on a template produced by the Template Normalizer in
which an option carries no `texto`, a choice-type answer that reaches the
substring-matching loop makes the Reconciler raise an `AttributeError`
(`opcion['texto'].lower()` with `texto = None`) instead of returning a
list; the claim says the Reconciler never raises for any template the
Normalizer can produce. -/
theorem reconciler_raises_cex :
    process_survey_template
      ⟨true, none, none,
        [⟨some "q1", none, some 1, none, some "opcion",
          [⟨some "o1", none, none⟩]⟩], none⟩
      = some ⟨none, ⟨none, none, none⟩,
          [⟨some "q1", none, some 1, false, "opcion",
            [⟨some "o1", none, none⟩]⟩]⟩ ∧
    format_responses_for_api
      [⟨some "q1", none, some (.scal (.sstr "zzz"))⟩]
      (some ⟨none, ⟨none, none, none⟩,
        [⟨some "q1", none, some 1, false, "opcion",
          [⟨some "o1", none, none⟩]⟩]⟩)
      = .error "AttributeError: NoneType object has no attribute lower" :=
  ⟨rfl, rfl⟩

/-- C3 (amended): the Reconciler never raises and returns a
(possibly empty) list — with mismatched answers silently excluded — for
every set of extracted answers and every template in which each option
carries a `texto`; a missing template likewise yields the empty list.
(The unamended claim fails only on normalized templates containing an
option with no `texto`, see the counterexample.) -/
theorem reconciler_total (ocr : List PreguntaOcr) (t : Template)
    (H : ∀ q ∈ t.preguntas, ∀ o ∈ q.opciones, o.texto.isSome = true) :
    (format_responses_for_api ocr (some t)).isOk = true ∧
    ∀ ocr2 : List PreguntaOcr,
      format_responses_for_api ocr2 none = .ok [] := by
  constructor
  · unfold format_responses_for_api
    cases ho : ocr.isEmpty with
    | true => rfl
    | false =>
        obtain ⟨rs, hrs⟩ := goAnswers_total t H ocr
        simp [hrs]
        rfl
  · intro ocr2
    unfold format_responses_for_api
    simp

/-- Witness for C3 (amended) at a concrete input. -/
theorem reconciler_total_witness :
    (format_responses_for_api
      [⟨some "q1", none, some (.scal (.sstr "hi"))⟩]
      (some ⟨none, ⟨none, none, none⟩,
        [⟨some "q1", none, some 1, false, "abierta", []⟩]⟩)).isOk = true ∧
    format_responses_for_api [] none = .ok [] :=
  ⟨(reconciler_total _ _ (by decide)).1,
   (reconciler_total []
     ⟨none, ⟨none, none, none⟩, []⟩ (by decide)).2 []⟩

/-! ### Claim C4 -/

/-- C4: every entry the Reconciler outputs is well-formed: either
`{preguntaId, texto}` where `preguntaId` is the id of a template question
of open type, or `{preguntaId, opcionId}` where `opcionId` is the id of an
option of that same template question; no other shape is emitted. -/
theorem reconciler_output_well_formed (ocr : List PreguntaOcr)
    (t : Template) (rs : List ApiResp)
    (h : format_responses_for_api ocr (some t) = .ok rs) :
    ∀ r ∈ rs, wellFormedResp t r := by
  unfold format_responses_for_api at h
  cases ho : ocr.isEmpty with
  | true =>
      rw [ho] at h
      simp at h
      subst h
      intro r hr
      simp at hr
  | false =>
      rw [ho] at h
      simp at h
      exact goAnswers_shape t ocr rs h

/-- Witness for C4 at a concrete input: the single emitted entry is
well-formed for its template. -/
theorem reconciler_output_well_formed_witness :
    wellFormedResp
      ⟨none, ⟨none, none, none⟩,
        [⟨some "q1", none, some 1, false, "abierta", []⟩]⟩
      (ApiResp.texto (some "q1") "hola") :=
  reconciler_output_well_formed
    [⟨some "q1", none, some (.scal (.sstr "hola"))⟩]
    ⟨none, ⟨none, none, none⟩,
      [⟨some "q1", none, some 1, false, "abierta", []⟩]⟩
    [ApiResp.texto (some "q1") "hola"] rfl
    (ApiResp.texto (some "q1") "hola") (List.mem_singleton.mpr rfl)

/-! ### Claim C8 -/

theorem normalizer_fold_eq (l : List RawPregunta) :
    l.foldl
      (fun acc p =>
        acc ++ [⟨p.id, p.texto, p.orden, p.obligatorio.getD false,
                 p.tipoNombre.getD "",
                 p.opciones.foldl
                   (fun acc2 o => acc2 ++ [⟨o.id, o.texto, o.valor⟩]) []⟩])
      [] = l.map normalizePregunta := by
  have hf : (fun (acc : List Pregunta) (p : RawPregunta) =>
      acc ++ [(⟨p.id, p.texto, p.orden, p.obligatorio.getD false,
               p.tipoNombre.getD "",
               p.opciones.foldl
                 (fun acc2 o => acc2 ++ [⟨o.id, o.texto, o.valor⟩]) []⟩
        : Pregunta)]) =
      fun acc p => acc ++ [normalizePregunta p] := by
    funext acc p
    have hinner : (p.opciones.foldl
        (fun acc2 o => acc2 ++ [(⟨o.id, o.texto, o.valor⟩ : Opcion)]) [])
        = p.opciones.map normalizeOpcion := by
      simpa using foldl_append_eq_map normalizeOpcion p.opciones []
    simp [normalizePregunta, hinner]
  rw [hf]
  simpa using foldl_append_eq_map normalizePregunta l []

/-- C8: the Template Normalizer returns nothing exactly when the input
`success` flag is false; otherwise it maps every raw question field by
field — missing `tipo` defaulting to the empty string, missing
`obligatorio` to false — and carries questions and options through in
their original input order with no deduplication or reordering (the output
question list is precisely the input list mapped element-wise, options
likewise). -/
theorem normalizer_spec :
    (∀ d : RawPreguntasData, d.success = false →
      process_survey_template d = none) ∧
    (∀ d : RawPreguntasData, d.success = true →
      process_survey_template d =
        some ⟨d.entrega_id, normalizeEncuesta d.encuesta,
              d.preguntas.map normalizePregunta⟩) ∧
    (∀ p : RawPregunta, p.tipoNombre = none →
      (normalizePregunta p).tipo = "") ∧
    (∀ p : RawPregunta, p.obligatorio = none →
      (normalizePregunta p).obligatorio = false) ∧
    (∀ p : RawPregunta, (normalizePregunta p).opciones =
      p.opciones.map normalizeOpcion) := by
  refine ⟨?_, ?_, ?_, ?_, ?_⟩
  · intro d h
    unfold process_survey_template
    rw [h]
    rfl
  · intro d h
    unfold process_survey_template
    rw [h, normalizer_fold_eq]
    cases d.encuesta <;> rfl
  · intro p h
    simp [normalizePregunta, h]
  · intro p h
    simp [normalizePregunta, h]
  · intro p
    rfl

/-- Witness for C8 at concrete inputs: a failed fetch yields nothing; a
successful fetch with one raw question lacking `tipo` and `obligatorio`
yields the field-mapped template with the defaults. -/
theorem normalizer_spec_witness :
    process_survey_template ⟨false, none, none, [], none⟩ = none ∧
    process_survey_template
      ⟨true, some "e1", none, [⟨some "q1", none, none, none, none, []⟩], none⟩
      = some ⟨some "e1", ⟨none, none, none⟩,
          [⟨some "q1", none, none, false, "", []⟩]⟩ ∧
    (normalizePregunta ⟨some "q1", none, none, none, none, []⟩).tipo = "" :=
  ⟨normalizer_spec.1 _ rfl,
   by rw [normalizer_spec.2.1 _ rfl]; rfl,
   normalizer_spec.2.2.1 _ rfl⟩

/-! ### Claim C7 -/

theorem pyMaxBy_mem (f : QrInfo → Int) :
    ∀ (xs : List QrInfo) (b : QrInfo), pyMaxBy f b xs = b ∨ pyMaxBy f b xs ∈ xs
  | [], b => Or.inl rfl
  | x :: xs, b => by
      unfold pyMaxBy
      rcases pyMaxBy_mem f xs (if f b < f x then x else b) with h | h
      · rw [h]
        by_cases hbx : f b < f x
        · rw [if_pos hbx]
          exact Or.inr (by simp)
        · rw [if_neg hbx]
          exact Or.inl rfl
      · exact Or.inr (List.mem_cons_of_mem _ h)

theorem pyMaxBy_le (f : QrInfo → Int) :
    ∀ (xs : List QrInfo) (b : QrInfo) (y : QrInfo),
      (y = b ∨ y ∈ xs) → f y ≤ f (pyMaxBy f b xs)
  | [], b, y, hy => by
      rcases hy with rfl | h
      · exact le_refl _
      · simp at h
  | x :: xs, b, y, hy => by
      unfold pyMaxBy
      have hstep : ∀ z, (z = b ∨ z = x) →
          f z ≤ f (if f b < f x then x else b) := by
        intro z hz
        by_cases hbx : f b < f x
        · rw [if_pos hbx]
          rcases hz with rfl | rfl
          · exact le_of_lt hbx
          · exact le_refl _
        · rw [if_neg hbx]
          rcases hz with rfl | rfl
          · exact le_refl _
          · exact le_of_not_lt hbx
      have hrec := pyMaxBy_le f xs (if f b < f x then x else b)
      rcases hy with rfl | hmem
      · exact le_trans (hstep y (Or.inl rfl)) (hrec _ (Or.inl rfl))
      · rcases List.mem_cons.mp hmem with rfl | hxs
        · exact le_trans (hstep y (Or.inr rfl)) (hrec _ (Or.inl rfl))
        · exact hrec y (Or.inr hxs)

/-- C7 counterexample: two identifier-bearing results, the first without a
bounding box and the second with a 10×10 box.  The selector returns the
first (area 0), not the one with the largest bounding-box area, because
the maximal-area search only runs when the *first* result has a box. -/
theorem selector_largest_area_cex :
    find_best_entrega_qr
      [⟨"d1", "QRCODE", none, some "id1", true⟩,
       ⟨"d2", "QRCODE", some ⟨0, 0, 10, 10, 10, 10⟩, some "id2", true⟩]
      = some ⟨some "id1", "d1", "medium", none⟩ ∧
    qrArea ⟨"d2", "QRCODE", some ⟨0, 0, 10, 10, 10, 10⟩, some "id2", true⟩
      = 100 ∧
    qrArea ⟨"d1", "QRCODE", none, some "id1", true⟩ = 0 :=
  ⟨rfl, rfl, rfl⟩

/-- C7 (amended): on a non-empty list of identifier-bearing results, when
the first result has a bounding box the selector picks an element of
maximal area (results without a box counting as area 0); when the first
result has no bounding box the selector picks that first result regardless
of the others; and in either case the reported confidence is `"high"` if
and only if the list contains exactly one result. -/
theorem selector_spec :
    (∀ (q0 : QrInfo) (rest : List QrInfo), q0.bbox.isSome = true →
      ∃ sel, (sel = q0 ∨ sel ∈ rest) ∧
        (∀ x, (x = q0 ∨ x ∈ rest) → qrArea x ≤ qrArea sel) ∧
        find_best_entrega_qr (q0 :: rest) =
          some ⟨sel.entrega_id, sel.data,
            if (q0 :: rest).length == 1 then "high" else "medium",
            sel.bbox⟩) ∧
    (∀ (q0 : QrInfo) (rest : List QrInfo), q0.bbox = none →
      find_best_entrega_qr (q0 :: rest) =
        some ⟨q0.entrega_id, q0.data,
          if (q0 :: rest).length == 1 then "high" else "medium",
          q0.bbox⟩) ∧
    (∀ (l : List QrInfo) (r : BestQr), find_best_entrega_qr l = some r →
      (r.confidence = "high" ↔ l.length = 1)) := by
  refine ⟨?_, ?_, ?_⟩
  · intro q0 rest h
    refine ⟨pyMaxBy qrArea q0 rest, pyMaxBy_mem qrArea rest q0, ?_, ?_⟩
    · intro x hx
      exact pyMaxBy_le qrArea rest q0 x hx
    · simp only [find_best_entrega_qr, h, if_true]
  · intro q0 rest h
    simp only [find_best_entrega_qr, h, Option.isSome_none,
      Bool.false_eq_true, if_false]
  · intro l r hr
    cases l with
    | nil => cases hr
    | cons q0 rest =>
        unfold find_best_entrega_qr at hr
        injection hr with hr'
        subst hr'
        cases rest with
        | nil => simp
        | cons q1 rest' =>
            constructor
            · intro hc
              simp at hc
            · intro hl
              simp at hl

/-- Witness for C7 (amended) at a concrete input: a single result without a
bounding box is selected as-is, with confidence `"high"`. -/
theorem selector_spec_witness :
    find_best_entrega_qr [⟨"d1", "QRCODE", none, some "id1", true⟩]
      = some ⟨some "id1", "d1", "high", none⟩ := by
  rw [selector_spec.2.1 _ [] rfl]
  rfl

/-! ### Claim C9 -/

/-- C9 (amended): the Orchestrator halts at the first failing stage and
returns `{success: false, error, step}` naming that stage, without
consulting the results of any later stage; when QR scan, template fetch
and AI extraction all succeed *and the reconciliation step raises no
exception*, it returns the success result carrying the count of
reconciled responses and the submit result — a rejected or failed
submission leaves the success outcome intact (the result is the same
`ok` constructor for every submit result). -/
theorem orchestrator_spec :
    (∀ (qr : QrScanResult) (fetch : RawPreguntasData) (ocr : OcrResult)
       (save : SaveResult),
      (qr.success = false ∨ qr.entrega_qrs = []) →
      process_survey_image qr fetch ocr save =
        .failed "No se encontró código QR con entrega ID" none "qr_scan") ∧
    (∀ (qr : QrScanResult) (fetch : RawPreguntasData) (ocr : OcrResult)
       (save : SaveResult),
      qr.success = true → qr.entrega_qrs ≠ [] → fetch.success = false →
      process_survey_image qr fetch ocr save =
        .failed ("Error obteniendo encuesta: " ++ optErrStr fetch.error)
          (firstEntregaId qr) "api_get") ∧
    (∀ (qr : QrScanResult) (fetch : RawPreguntasData) (ocr : OcrResult)
       (save : SaveResult),
      qr.success = true → qr.entrega_qrs ≠ [] → fetch.success = true →
      ocr.success = false →
      process_survey_image qr fetch ocr save =
        .failed ("Error en Gemini: " ++ optErrStr ocr.error)
          (firstEntregaId qr) "gemini_ocr") ∧
    (∀ (qr : QrScanResult) (fetch : RawPreguntasData) (ocr : OcrResult)
       (save : SaveResult) (t : Template) (rs : List ApiResp),
      qr.success = true → qr.entrega_qrs ≠ [] → fetch.success = true →
      ocr.success = true →
      process_survey_template fetch = some t →
      format_responses_for_api ocr.survey_preguntas (some t) = .ok rs →
      process_survey_image qr fetch ocr save =
        .ok (firstEntregaId qr) t.encuesta rs.length save save.success) := by
  refine ⟨?_, ?_, ?_, ?_⟩
  · intro qr fetch ocr save h
    rcases h with h | h <;>
      simp [process_survey_image, h]
  · intro qr fetch ocr save h1 h2 h3
    simp [process_survey_image, h1, h3, List.isEmpty_iff, h2]
  · intro qr fetch ocr save h1 h2 h3 h4
    have ht : ∃ t, process_survey_template fetch = some t := by
      unfold process_survey_template
      rw [h3]
      exact ⟨_, rfl⟩
    obtain ⟨t, ht⟩ := ht
    simp [process_survey_image, h1, h3, h4, List.isEmpty_iff, h2, ht]
  · intro qr fetch ocr save t rs h1 h2 h3 h4 ht hfmt
    simp [process_survey_image, h1, h3, h4, List.isEmpty_iff, h2, ht, hfmt]

/-- C9 counterexample: all three stages report success, yet the run result
is `{success: false, step: 'exception'}`, because the reconciliation of a
choice answer against a normalized template whose option lacks `texto`
raises inside the orchestrator's `try` block.  The claim asserts
`success: true` whenever scan, fetch and extraction succeed. -/
theorem orchestrator_success_cex :
    process_survey_image
      ⟨true, [], [⟨"d", "QRCODE", none, some "e1", true⟩], none⟩
      ⟨true, some "e1", none,
        [⟨some "q1", none, some 1, none, some "opcion",
          [⟨some "o1", none, none⟩]⟩], none⟩
      ⟨true, none, [⟨some "q1", none, some (.scal (.sstr "zzz"))⟩]⟩
      ⟨true, none, none⟩
      = .failed
          "Error inesperado: AttributeError: NoneType object has no attribute lower"
          none "exception" := rfl

/-- Witness for C9 (amended) at concrete inputs: every stage succeeds, the
reconciler emits one response, and the run reports `ok` with count 1 even
though the submission was rejected (`save.success = false`). -/
theorem orchestrator_spec_witness :
    process_survey_image
      ⟨true, [], [⟨"d", "QRCODE", none, some "e1", true⟩], none⟩
      ⟨true, some "e1", none,
        [⟨some "q1", none, some 1, none, some "abierta", []⟩], none⟩
      ⟨true, none, [⟨some "q1", none, some (.scal (.sstr "hola"))⟩]⟩
      ⟨false, none, some "rejected"⟩
      = .ok (some "e1") ⟨none, none, none⟩ 1
          ⟨false, none, some "rejected"⟩ false :=
  orchestrator_spec.2.2.2
    ⟨true, [], [⟨"d", "QRCODE", none, some "e1", true⟩], none⟩
    ⟨true, some "e1", none,
      [⟨some "q1", none, some 1, none, some "abierta", []⟩], none⟩
    ⟨true, none, [⟨some "q1", none, some (.scal (.sstr "hola"))⟩]⟩
    ⟨false, none, some "rejected"⟩
    ⟨some "e1", ⟨none, none, none⟩,
      [⟨some "q1", none, some 1, false, "abierta", []⟩]⟩
    [ApiResp.texto (some "q1") "hola"]
    rfl (by simp) rfl rfl rfl rfl

/-! ### Identifier Extractor: scanner lemmas -/

theorem string_mk_toList (s : String) : String.mk s.toList = s := rfl

theorem identChar_of_hexDash {c : Char} (h : hexDashChar c = true) :
    identChar c = true := by
  unfold hexDashChar hexChar at h
  unfold identChar
  simp only [Bool.or_eq_true, Bool.and_eq_true, decide_eq_true_eq,
    beq_iff_eq] at h ⊢
  omega

theorem findMarker_sep (marker seps : List Char) :
    ∀ (cs g : List Char), findMarker marker seps cs = some g →
      ∃ c ∈ cs, c ∈ seps
  | [], g, h => by cases h
  | c :: rest, g, h => by
      unfold findMarker at h
      split at h
      · split at h
        next sep tail hdrop =>
          split at h
          next hcond =>
            have hsep : sep ∈ seps := by
              rw [Bool.and_eq_true] at hcond
              simpa [List.contains, List.elem_iff] using hcond.1
            have hmem : sep ∈ c :: rest := by
              have hin : sep ∈ (c :: rest).drop marker.length := by
                rw [hdrop]
                exact List.mem_cons_self _ _
              exact List.drop_subset _ _ hin
            exact ⟨sep, hmem, hsep⟩
          next =>
            obtain ⟨c', hc', hs⟩ := findMarker_sep marker seps rest g h
            exact ⟨c', List.mem_cons_of_mem _ hc', hs⟩
        next =>
          obtain ⟨c', hc', hs⟩ := findMarker_sep marker seps rest g h
          exact ⟨c', List.mem_cons_of_mem _ hc', hs⟩
      · obtain ⟨c', hc', hs⟩ := findMarker_sep marker seps rest g h
        exact ⟨c', List.mem_cons_of_mem _ hc', hs⟩

theorem findMarker_group (marker seps : List Char) :
    ∀ (cs g : List Char), findMarker marker seps cs = some g →
      ∃ t, t <:+ cs ∧ g = t.takeWhile hexDashChar
  | [], g, h => by cases h
  | c :: rest, g, h => by
      unfold findMarker at h
      split at h
      · split at h
        next sep tail hdrop =>
          split at h
          next =>
            injection h with h'
            refine ⟨tail, ?_, h'.symm⟩
            have h1 : sep :: tail <:+ c :: rest := by
              rw [← hdrop]
              exact List.drop_suffix _ _
            exact (List.suffix_cons sep tail).trans h1
          next =>
            obtain ⟨t, ht, hg⟩ := findMarker_group marker seps rest g h
            exact ⟨t, ht.trans (List.suffix_cons c rest), hg⟩
        next =>
          obtain ⟨t, ht, hg⟩ := findMarker_group marker seps rest g h
          exact ⟨t, ht.trans (List.suffix_cons c rest), hg⟩
      · obtain ⟨t, ht, hg⟩ := findMarker_group marker seps rest g h
        exact ⟨t, ht.trans (List.suffix_cons c rest), hg⟩

theorem findMarker_none_of_ident (marker seps cs : List Char)
    (hcs : ∀ c ∈ cs, identChar c = true)
    (hseps : ∀ c ∈ seps, identChar c = false) :
    findMarker marker seps cs = none := by
  cases hg : findMarker marker seps cs with
  | none => rfl
  | some g =>
      obtain ⟨c, hc, hs⟩ := findMarker_sep marker seps cs g hg
      have h1 := hcs c hc
      have h2 := hseps c hs
      rw [h1] at h2
      cases h2

theorem hasRun10_of_suffix :
    ∀ (cs t : List Char), t <:+ cs →
      10 ≤ (t.takeWhile identChar).length → hasRun10 cs = true
  | [], t, hsuf, h10 => by
      have ht : t = [] := List.suffix_nil.mp hsuf
      subst ht
      simp at h10
  | c :: rest, t, hsuf, h10 => by
      rcases List.suffix_cons_iff.mp hsuf with rfl | hsuf'
      · unfold hasRun10
        rw [Bool.or_eq_true]
        exact Or.inl (decide_eq_true h10)
      · unfold hasRun10
        rw [hasRun10_of_suffix rest t hsuf' h10]
        simp

theorem findRun_none : ∀ cs : List Char, hasRun10 cs = false →
    findRun1050 cs = none
  | [], _ => rfl
  | c :: rest, h => by
      unfold hasRun10 at h
      rw [Bool.or_eq_false_iff] at h
      obtain ⟨h1, h2⟩ := h
      unfold findRun1050
      rw [if_neg (by simpa using h1)]
      exact findRun_none rest h2

theorem findRun_eq_self (cs : List Char)
    (hall : ∀ c ∈ cs, identChar c = true)
    (h10 : 10 ≤ cs.length) (h50 : cs.length ≤ 50) :
    findRun1050 cs = some cs := by
  cases cs with
  | nil => simp at h10
  | cons c rest =>
      unfold findRun1050
      have htw : (c :: rest).takeWhile identChar = c :: rest :=
        List.takeWhile_eq_self_iff.mpr hall
      rw [htw, if_pos h10, List.take_of_length_le h50]

theorem uuidShape_length {cs : List Char} (h : uuidShape cs = true) :
    cs.length = 36 := by
  unfold uuidShape at h
  rw [Bool.and_eq_true] at h
  simpa using h.1

theorem findUuid_self (cs : List Char) (h : uuidShape cs = true) :
    findUuid cs = some cs := by
  have hlen := uuidShape_length h
  cases cs with
  | nil => simp at hlen
  | cons c rest =>
      unfold findUuid
      have htake : (c :: rest).take 36 = c :: rest :=
        List.take_of_length_le (by rw [hlen])
      rw [htake, if_pos h]

theorem findUuid_some :
    ∀ (cs u : List Char), findUuid cs = some u →
      uuidShape u = true ∧ ∃ t, t <:+ cs ∧ u = t.take 36
  | [], u, h => by cases h
  | c :: rest, u, h => by
      unfold findUuid at h
      split at h
      next hshape =>
        injection h with h'
        subst h'
        exact ⟨hshape, c :: rest, List.suffix_refl _, rfl⟩
      next =>
        obtain ⟨hs, t, ht, hu⟩ := findUuid_some rest u h
        exact ⟨hs, t, ht.trans (List.suffix_cons c rest), hu⟩

theorem uuidShape_ident {u : List Char} (h : uuidShape u = true) :
    ∀ c ∈ u, identChar c = true := by
  intro c hc
  have hlen := uuidShape_length h
  unfold uuidShape at h
  rw [Bool.and_eq_true] at h
  have hall := h.2
  rw [List.all_eq_true] at hall
  obtain ⟨⟨i, hi⟩, hget⟩ := List.mem_iff_get.mp hc
  have hi36 : i < 36 := by omega
  have hcond := hall i (List.mem_range.mpr hi36)
  have hgd : u.getD i ' ' = c := by
    rw [List.getD_eq_get?, List.get?_eq_get hi]
    simpa using hget
  rw [hgd] at hcond
  split at hcond
  · have hdash : c = '-' := by simpa using hcond
    subst hdash
    decide
  · exact identChar_of_hexDash (by unfold hexDashChar; simp [hcond])

theorem is_valid_of_uuidShape {cs : List Char} (h : uuidShape cs = true) :
    is_valid_entrega_id cs = true := by
  unfold is_valid_entrega_id
  rw [h]
  rfl

theorem is_valid_false_short {cs : List Char} (hlen : cs.length ≤ 9) :
    is_valid_entrega_id cs = false := by
  unfold is_valid_entrega_id
  have h1 : uuidShape cs = false := by
    cases hu : uuidShape cs with
    | false => rfl
    | true => exact absurd (uuidShape_length hu) (by omega)
  have h2 : decide (10 ≤ cs.length) = false := by
    simp
    omega
  rw [h1, h2]
  rfl

theorem tryPatterns_cons_none (f : List Char → Option (List Char))
    (fs : List (List Char → Option (List Char))) (cs : List Char)
    (h : f cs = none) : tryPatterns (f :: fs) cs = tryPatterns fs cs := by
  simp [tryPatterns, h]

theorem tryPatterns_cons_invalid (f : List Char → Option (List Char))
    (fs : List (List Char → Option (List Char))) (cs g : List Char)
    (h : f cs = some g) (hv : is_valid_entrega_id g = false) :
    tryPatterns (f :: fs) cs = tryPatterns fs cs := by
  simp [tryPatterns, h, hv]

theorem tryPatterns_cons_valid (f : List Char → Option (List Char))
    (fs : List (List Char → Option (List Char))) (cs g : List Char)
    (h : f cs = some g) (hv : is_valid_entrega_id g = true) :
    tryPatterns (f :: fs) cs = some g := by
  simp [tryPatterns, h, hv]

/-! ### Claim C5 -/

/-- C5 counterexample: the payload
`"x123e4567-e89b-12d3-a456-426614174000"` is itself a bare valid
identifier (37 characters of letters/digits/hyphen, no marker), yet the
Extractor does not return it unchanged: the higher-priority `uuid` pattern
matches the embedded 36-character UUID substring and that substring is
returned instead. -/
theorem extractor_bare_cex :
    is_valid_entrega_id
      "x123e4567-e89b-12d3-a456-426614174000".toList = true ∧
    extract_entrega_id "x123e4567-e89b-12d3-a456-426614174000"
      = some "123e4567-e89b-12d3-a456-426614174000" ∧
    ("x123e4567-e89b-12d3-a456-426614174000" : String)
      ≠ "123e4567-e89b-12d3-a456-426614174000" :=
  ⟨by decide, rfl, by decide⟩

/-- C5 (amended): the Extractor returns a bare valid identifier payload
unchanged provided no *proper* substring of it matches the
higher-priority `uuid` pattern: this holds for every payload that is
itself canonical-UUID-shaped, and for every valid simple identifier
(10-50 identifier characters) that contains no UUID-shaped substring.
(Identifier characters exclude the marker separators `=`, `:`, `/`, `?`,
so such payloads can carry no marker.) -/
theorem extractor_bare_identifier (s : String)
    (hident : ∀ c ∈ s.toList, identChar c = true)
    (hshape : uuidShape s.toList = true ∨
      (is_valid_entrega_id s.toList = true ∧ findUuid s.toList = none)) :
    extract_entrega_id s = some s := by
  have hm1 : pat_entrega_id s.toList = none :=
    findMarker_none_of_ident _ _ _ hident (by decide)
  have hm2 : pat_url_entrega s.toList = none :=
    findMarker_none_of_ident _ _ _ hident (by decide)
  rcases hshape with huuid | ⟨hval, hnouuid⟩
  · have etry : tryPatterns
        [pat_entrega_id, pat_url_entrega, findUuid, findRun1050] s.toList
        = some s.toList := by
      rw [tryPatterns_cons_none _ _ _ hm1, tryPatterns_cons_none _ _ _ hm2]
      exact tryPatterns_cons_valid _ _ _ _ (findUuid_self _ huuid)
        (is_valid_of_uuidShape huuid)
    simp only [extract_entrega_id, etry]
    rw [string_mk_toList]
  · have hu_false : uuidShape s.toList = false := by
      cases hu : uuidShape s.toList with
      | false => rfl
      | true => rw [findUuid_self _ hu] at hnouuid; cases hnouuid
    have hcust : (decide (10 ≤ s.toList.length) &&
        decide (s.toList.length ≤ 50) && s.toList.all identChar) = true := by
      unfold is_valid_entrega_id at hval
      rw [hu_false] at hval
      simpa using hval
    rw [Bool.and_eq_true, Bool.and_eq_true] at hcust
    obtain ⟨⟨h10d, h50d⟩, _⟩ := hcust
    have h10 := of_decide_eq_true h10d
    have h50 := of_decide_eq_true h50d
    have erun : findRun1050 s.toList = some s.toList :=
      findRun_eq_self _ hident h10 h50
    have etry : tryPatterns
        [pat_entrega_id, pat_url_entrega, findUuid, findRun1050] s.toList
        = some s.toList := by
      rw [tryPatterns_cons_none _ _ _ hm1, tryPatterns_cons_none _ _ _ hm2,
        tryPatterns_cons_none _ _ _ hnouuid]
      exact tryPatterns_cons_valid _ _ _ _ erun hval
    simp only [extract_entrega_id, etry]
    rw [string_mk_toList]

/-- Witness for C5 (amended) at concrete inputs: a bare canonical UUID and
a bare simple identifier are both returned unchanged. -/
theorem extractor_bare_identifier_witness :
    extract_entrega_id "123e4567-e89b-12d3-a456-426614174000"
      = some "123e4567-e89b-12d3-a456-426614174000" ∧
    extract_entrega_id "entrega-abc123" = some "entrega-abc123" :=
  ⟨extractor_bare_identifier _ (by decide) (Or.inl (by decide)),
   extractor_bare_identifier _ (by decide) (Or.inr ⟨by decide, by decide⟩)⟩

/-! ### Claim C6 -/

/-- C6 counterexample: the payload `"hello world abcdef12345"` is not
identifier-shaped (it contains spaces) and carries no marker, yet the
Extractor returns `"abcdef12345"`: the `simple_id` pattern matches the
embedded 11-character run and that run validates.  The claim says the
Extractor returns nothing for such payloads. -/
theorem extractor_none_cex :
    is_valid_entrega_id "hello world abcdef12345".toList = false ∧
    extract_entrega_id "hello world abcdef12345" = some "abcdef12345" :=
  ⟨by decide, rfl⟩

/-- C6 (amended): the Extractor returns nothing exactly for the payloads
that nowhere contain 10 consecutive identifier-class characters
(letters/digits/hyphen/underscore): with no such run there is no
UUID-shaped substring, no valid marker-embedded candidate, no `simple_id`
match and no valid whole-payload candidate, so the result is `none`. -/
theorem extractor_no_run_none (s : String)
    (h : hasRun10 s.toList = false) :
    extract_entrega_id s = none := by
  have hnot : ∀ t : List Char, t <:+ s.toList →
      ¬ 10 ≤ (t.takeWhile identChar).length := by
    intro t ht h10
    have := hasRun10_of_suffix s.toList t ht h10
    rw [h] at this
    cases this
  have hmarker : ∀ seps g, findMarker "entregaid".toList seps s.toList = some g ∨
      findMarker "entrega".toList seps s.toList = some g →
      is_valid_entrega_id g = false := by
    intro seps g hg
    have hgrp : ∃ t, t <:+ s.toList ∧ g = t.takeWhile hexDashChar := by
      rcases hg with hg | hg
      · exact findMarker_group _ _ _ g hg
      · exact findMarker_group _ _ _ g hg
    obtain ⟨t, ht, rfl⟩ := hgrp
    apply is_valid_false_short
    by_contra hlen
    push_neg at hlen
    have hmono := @takeWhile_length_mono hexDashChar identChar
      (fun c hc => identChar_of_hexDash hc) t
    exact hnot t ht (by omega)
  have huuid : findUuid s.toList = none := by
    cases hu : findUuid s.toList with
    | none => rfl
    | some u =>
        obtain ⟨hs, t, ht, hu'⟩ := findUuid_some _ u hu
        subst hu'
        have hlen : (t.take 36).length = 36 := uuidShape_length hs
        have htlen : 36 ≤ t.length := by
          rw [List.length_take] at hlen
          omega
        have h10 : 10 ≤ (t.takeWhile identChar).length := by
          apply takeWhile_length_of_take 10 t
          · intro c hc
            apply uuidShape_ident hs
            have he : t.take 10 = (t.take 36).take 10 := by
              rw [List.take_take]
              norm_num
            rw [he] at hc
            exact List.take_subset _ _ hc
          · omega
        exact absurd h10 (hnot t ht)
  have hrun : findRun1050 s.toList = none := findRun_none _ h
  have hwhole : is_valid_entrega_id s.toList = false := by
    cases hv : is_valid_entrega_id s.toList with
    | false => rfl
    | true =>
        unfold is_valid_entrega_id at hv
        rw [Bool.or_eq_true] at hv
        rcases hv with hu | hcust
        · rw [findUuid_self _ hu] at huuid
          cases huuid
        · rw [Bool.and_eq_true, Bool.and_eq_true] at hcust
          obtain ⟨⟨h10d, _⟩, halld⟩ := hcust
          have h10 := of_decide_eq_true h10d
          have hall := List.all_eq_true.mp halld
          have h10' : 10 ≤ (s.toList.takeWhile identChar).length := by
            rw [List.takeWhile_eq_self_iff.mpr hall]
            exact h10
          exact absurd h10' (hnot s.toList (List.suffix_refl _))
  have etry : tryPatterns
      [pat_entrega_id, pat_url_entrega, findUuid, findRun1050] s.toList
      = none := by
    have e1 : tryPatterns
        [pat_entrega_id, pat_url_entrega, findUuid, findRun1050] s.toList
        = tryPatterns [pat_url_entrega, findUuid, findRun1050] s.toList := by
      cases hg : pat_entrega_id s.toList with
      | none => exact tryPatterns_cons_none _ _ _ hg
      | some g =>
          exact tryPatterns_cons_invalid _ _ _ _ hg
            (hmarker _ g (Or.inl hg))
    have e2 : tryPatterns [pat_url_entrega, findUuid, findRun1050] s.toList
        = tryPatterns [findUuid, findRun1050] s.toList := by
      cases hg : pat_url_entrega s.toList with
      | none => exact tryPatterns_cons_none _ _ _ hg
      | some g =>
          exact tryPatterns_cons_invalid _ _ _ _ hg
            (hmarker _ g (Or.inr hg))
    rw [e1, e2, tryPatterns_cons_none _ _ _ huuid,
      tryPatterns_cons_none _ _ _ hrun]
    rfl
  simp only [extract_entrega_id, etry, hwhole]
  rfl

/-- Witness for C6 (amended) at a concrete input: a short non-identifier
payload yields nothing. -/
theorem extractor_no_run_none_witness :
    extract_entrega_id "hola mundo!" = none :=
  extractor_no_run_none _ (by decide)
